import Mathlib

/-!
Verification of the attendance & leave backend (routers + db layer).

The development shallowly embeds the per-employee state of the
Attendance State Machine, the GeoFence Evaluator, the Device Trust
Guard, the Field Task Tracker and the Leave Balance Ledger.  Database
rows become Lean structures, async db calls become explicit state
passing, thrown errors become `Except.error`, and JavaScript `Date`
values become milliseconds-since-epoch naturals.  Latitude/longitude
and the haversine distance are modelled over the real numbers.
-/

namespace Osus

/-- Error taxonomy: one constructor per distinct `throw new Error(...)`
site reachable in the modelled routes. -/
inductive Err where
  | notFound
  | deviceUnauthorized
  | alreadyCheckedIn
  | outsideWorkZone
  | noCheckInToday
  | alreadyCheckedOut
  | biometricMissing
  | notificationFailure
  | insufficientBalance
  | alreadyDecided
  | forbidden
  | validationFailed
  deriving DecidableEq, Repr

/-- JavaScript string truthiness for an optional string field:
`null`/`undefined` and the empty string are falsy. -/
def strTruthy : Option String → Bool
  | none => false
  | some s => s != ""

/-! ## Leave Balance Ledger (db layer + leave router) -/

inductive LeaveType where
  | annual
  | sick
  | emergency
  | unpaid
  deriving DecidableEq, Repr

inductive LeaveStatus where
  | pending
  | approved
  | rejected
  deriving DecidableEq, Repr

/-- Role of the employee resolved from `reviewerCode`; only the two
roles the approve/reject routes accept are distinguished. -/
inductive Role where
  | admin
  | branchManager
  | member
  deriving DecidableEq, Repr

structure Reviewer where
  id : ℕ
  role : Role
  deriving DecidableEq, Repr

/-- A `leave_requests` row (schema.ts).  Dates are modelled as whole
days since the epoch (the stored `YYYY-MM-DD` strings parse to UTC
midnight, i.e. `day * 86400000` ms). -/
structure LeaveRequest where
  id : ℕ
  leaveType : LeaveType
  startDate : ℤ
  endDate : ℤ
  totalDays : ℤ
  reason : String
  status : LeaveStatus
  reviewedBy : Option ℕ
  reviewedAt : Option ℕ
  rejectionReason : Option String
  deriving DecidableEq, Repr

/-- A `leave_balances` row for the current year. -/
structure LeaveBalance where
  annualBalance : ℤ
  sickBalance : ℤ
  emergencyBalance : ℤ
  usedAnnual : ℤ
  usedSick : ℤ
  usedEmergency : ℤ
  deriving DecidableEq, Repr

/-- Ledger state for one employee and one year: the (lazily created,
here always materialised) balance row, the leave-request rows, the next
auto-increment id and the notification log. -/
structure LedgerState where
  balance : LeaveBalance
  requests : List LeaveRequest
  nextReqId : ℕ
  notifs : List String
  deriving DecidableEq, Repr

/-- Environment of a single ledger request: clock, the employee's
branch (None ⇒ no branch notifications are attempted) and whether the
notification insert fails at the store. -/
structure LedgerEnv where
  nowMs : ℕ
  branchId : Option ℕ
  notifyFails : Bool
  deriving DecidableEq, Repr

/-- The balance row `getOrCreateLeaveBalance` creates on first access:
21/10/5 allotments, all `used*` at 0. -/
def freshBalance : LeaveBalance :=
  { annualBalance := 21
    sickBalance := 10
    emergencyBalance := 5
    usedAnnual := 0
    usedSick := 0
    usedEmergency := 0 }

def freshLedger : LedgerState :=
  { balance := freshBalance, requests := [], nextReqId := 0, notifs := [] }

/-- `leave.create` total-day computation:
`Math.ceil(Math.abs(end.getTime() - start.getTime()) / 86400000) + 1`,
with both dates at UTC midnight. -/
def computeTotalDays (startDate endDate : ℤ) : ℤ :=
  let msPerDay : ℕ := 1000 * 60 * 60 * 24
  let diffTime : ℕ := ((endDate - startDate) * (msPerDay : ℤ)).natAbs
  (((diffTime + msPerDay - 1) / msPerDay : ℕ) : ℤ) + 1

/-- `getLeaveBalance`'s `remaining` field for a paid leave type
(`total - used`); the unpaid branch is never consulted by the router. -/
def remainingFor (b : LeaveBalance) : LeaveType → ℤ
  | .annual => b.annualBalance - b.usedAnnual
  | .sick => b.sickBalance - b.usedSick
  | .emergency => b.emergencyBalance - b.usedEmergency
  | .unpaid => 0

/-- The per-type `used*` counter. -/
def usedFor (b : LeaveBalance) : LeaveType → ℤ
  | .annual => b.usedAnnual
  | .sick => b.usedSick
  | .emergency => b.usedEmergency
  | .unpaid => 0

/-- The per-type allotment. -/
def balFor (b : LeaveBalance) : LeaveType → ℤ
  | .annual => b.annualBalance
  | .sick => b.sickBalance
  | .emergency => b.emergencyBalance
  | .unpaid => 0

/-- Balance transform of `updateLeaveBalance`: add `days` to the
matching `used*` counter; unpaid leave does not affect the balance. -/
def consumeBalance (b : LeaveBalance) (leaveType : LeaveType) (days : ℤ) : LeaveBalance :=
  match leaveType with
  | .annual => { b with usedAnnual := b.usedAnnual + days }
  | .sick => { b with usedSick := b.usedSick + days }
  | .emergency => { b with usedEmergency := b.usedEmergency + days }
  | .unpaid => b

/-- `updateLeaveBalance(employeeId, leaveType, days)` on the state. -/
def updateLeaveBalance (st : LedgerState) (leaveType : LeaveType) (days : ℤ) : LedgerState :=
  { st with balance := consumeBalance st.balance leaveType days }

/-- `db.insert(leaveRequests).values(data)`: the row receives the next
auto-increment id and the schema-default status `pending`. -/
def createLeaveRequest (st : LedgerState) (leaveType : LeaveType)
    (startDate endDate totalDays : ℤ) (reason : String) : ℕ × LedgerState :=
  let req : LeaveRequest :=
    { id := st.nextReqId
      leaveType := leaveType
      startDate := startDate
      endDate := endDate
      totalDays := totalDays
      reason := reason
      status := .pending
      reviewedBy := none
      reviewedAt := none
      rejectionReason := none }
  (st.nextReqId,
   { st with
     requests := st.requests ++ [req]
     nextReqId := st.nextReqId + 1 })

def getLeaveRequestById (st : LedgerState) (id : ℕ) : Option LeaveRequest :=
  st.requests.find? fun r => r.id == id

/-- A notification insert that may fail at the store
(`Database not available` / insert error). -/
def ledgerCreateNotification (st : LedgerState) (env : LedgerEnv) (tag : String) :
    Except Err Unit × LedgerState :=
  if env.notifyFails then (.error .notificationFailure, st)
  else (.ok (), { st with notifs := st.notifs ++ [tag] })

/-- A notification dispatched with `.catch(...)`: a failure is swallowed
and never reaches the caller. -/
def ledgerNotifyCaught (st : LedgerState) (env : LedgerEnv) (tag : String) : LedgerState :=
  if env.notifyFails then st else { st with notifs := st.notifs ++ [tag] }

/-- The row update of `updateLeaveRequestStatus`: status, reviewer and
review time are always set; `rejectionReason` only when the new status
is `rejected` and the reason is truthy. -/
def applyReviewUpdate (status : LeaveStatus) (reviewedBy nowMs : ℕ)
    (rejectionReason : Option String) (r : LeaveRequest) : LeaveRequest :=
  { r with
    status := status
    reviewedBy := some reviewedBy
    reviewedAt := some nowMs
    rejectionReason :=
      if status = .rejected ∧ strTruthy rejectionReason then rejectionReason
      else r.rejectionReason }

/-- `updateLeaveRequestStatus(id, status, reviewedBy, rejectionReason?)`:
update the matching row; when the new status is `approved`, re-fetch the
request and apply `updateLeaveBalance` with its type and `totalDays`. -/
def updateLeaveRequestStatus (st : LedgerState) (id : ℕ) (status : LeaveStatus)
    (reviewedBy nowMs : ℕ) (rejectionReason : Option String) : LedgerState :=
  let st1 : LedgerState :=
    { st with requests := st.requests.map fun r =>
        if r.id = id then applyReviewUpdate status reviewedBy nowMs rejectionReason r else r }
  if status = .approved then
    match getLeaveRequestById st1 id with
    | some req => updateLeaveBalance st1 req.leaveType req.totalDays
    | none => st1
  else st1

/-- Route `leave.create`: compute `totalDays`, check the remaining
balance for paid types, insert the pending request, then fire
branch/admin notifications whose failures are `.catch`-swallowed.
The zod schema requires a non-empty reason. -/
def leaveCreate (st : LedgerState) (env : LedgerEnv) (leaveType : LeaveType)
    (startDate endDate : ℤ) (reason : String) : Except Err ℕ × LedgerState :=
  if reason = "" then (.error .validationFailed, st)
  else
    let totalDays := computeTotalDays startDate endDate
    if leaveType ≠ .unpaid ∧ remainingFor st.balance leaveType < totalDays then
      (.error .insufficientBalance, st)
    else
      let created := createLeaveRequest st leaveType startDate endDate totalDays reason
      let st2 := if env.branchId.isSome
        then ledgerNotifyCaught created.2 env "branch_leave_request" else created.2
      let st3 := ledgerNotifyCaught st2 env "admin_leave_request"
      (.ok created.1, st3)

/-- Route `leave.approve`: role gate, existence and pending guards, then
`updateLeaveRequestStatus(..., approved, ...)` followed by an awaited
branch notification (only when the employee has a branch). -/
def leaveApprove (st : LedgerState) (env : LedgerEnv) (reviewer : Option Reviewer)
    (requestId : ℕ) : Except Err Unit × LedgerState :=
  match reviewer with
  | none => (.error .forbidden, st)
  | some rv =>
    if rv.role = .branchManager ∨ rv.role = .admin then
      match getLeaveRequestById st requestId with
      | none => (.error .notFound, st)
      | some req =>
        if req.status = .pending then
          let st1 := updateLeaveRequestStatus st requestId .approved rv.id env.nowMs none
          if env.branchId.isSome then
            match ledgerCreateNotification st1 env "leave_approved" with
            | (.error e, st2) => (.error e, st2)
            | (.ok _, st2) => (.ok (), st2)
          else (.ok (), st1)
        else (.error .alreadyDecided, st)
    else (.error .forbidden, st)

/-- Route `leave.reject`: like approve but sets `rejected` with the
mandatory (zod non-empty) reason; the balance is never touched. -/
def leaveReject (st : LedgerState) (env : LedgerEnv) (reviewer : Option Reviewer)
    (requestId : ℕ) (reason : String) : Except Err Unit × LedgerState :=
  if reason = "" then (.error .validationFailed, st)
  else
    match reviewer with
    | none => (.error .forbidden, st)
    | some rv =>
      if rv.role = .branchManager ∨ rv.role = .admin then
        match getLeaveRequestById st requestId with
        | none => (.error .notFound, st)
        | some req =>
          if req.status = .pending then
            let st1 := updateLeaveRequestStatus st requestId .rejected rv.id env.nowMs (some reason)
            if env.branchId.isSome then
              match ledgerCreateNotification st1 env "leave_rejected" with
              | (.error e, st2) => (.error e, st2)
              | (.ok _, st2) => (.ok (), st2)
            else (.ok (), st1)
          else (.error .alreadyDecided, st)
      else (.error .forbidden, st)

/-- One ledger operation as issued by a caller. -/
inductive LedgerOp where
  | request (leaveType : LeaveType) (startDate endDate : ℤ) (reason : String)
  | approveOp (reviewer : Option Reviewer) (requestId : ℕ)
  | rejectOp (reviewer : Option Reviewer) (requestId : ℕ) (reason : String)
  deriving DecidableEq, Repr

/-- State transition of one ledger operation (the state component of the
route result; errors leave the state as the route left it). -/
def stepLedger (env : LedgerEnv) (st : LedgerState) : LedgerOp → LedgerState
  | .request leaveType s e reason => (leaveCreate st env leaveType s e reason).2
  | .approveOp rv id => (leaveApprove st env rv id).2
  | .rejectOp rv id reason => (leaveReject st env rv id reason).2

def runLedger (env : LedgerEnv) (ops : List LedgerOp) : LedgerState :=
  ops.foldl (stepLedger env) freshLedger

/-- States reachable from a fresh yearly balance by any sequence of
leave operations. -/
inductive LedgerReachable : LedgerState → Prop where
  | init : LedgerReachable freshLedger
  | step : ∀ st env op, LedgerReachable st → LedgerReachable (stepLedger env st op)

/-- States reachable when request creation is serialized behind
decisions: a new request is only issued while no request is pending. -/
inductive LedgerReachableSerial : LedgerState → Prop where
  | init : LedgerReachableSerial freshLedger
  | requestStep : ∀ st env leaveType s e reason, LedgerReachableSerial st →
      (∀ r ∈ st.requests, r.status ≠ LeaveStatus.pending) →
      LedgerReachableSerial (stepLedger env st (.request leaveType s e reason))
  | approveStep : ∀ st env rv id, LedgerReachableSerial st →
      LedgerReachableSerial (stepLedger env st (.approveOp rv id))
  | rejectStep : ∀ st env rv id reason, LedgerReachableSerial st →
      LedgerReachableSerial (stepLedger env st (.rejectOp rv id reason))

/-- The spec invariant: each `used*` counter stays within its allotment. -/
def usedWithinBalance (st : LedgerState) : Prop :=
  st.balance.usedAnnual ≤ st.balance.annualBalance ∧
  st.balance.usedSick ≤ st.balance.sickBalance ∧
  st.balance.usedEmergency ≤ st.balance.emergencyBalance

/-- All three `used*` counters of `a` are below those of `b`. -/
def usedMono (a b : LeaveBalance) : Prop :=
  a.usedAnnual ≤ b.usedAnnual ∧ a.usedSick ≤ b.usedSick ∧
  a.usedEmergency ≤ b.usedEmergency

/-- Spec-side description of the approval balance effect: exactly the
matching `used*` counter grows by `d`, everything else is untouched. -/
def IncrementsExactly (old new : LeaveBalance) (leaveType : LeaveType) (d : ℤ) : Prop :=
  match leaveType with
  | .annual => new = { old with usedAnnual := old.usedAnnual + d }
  | .sick => new = { old with usedSick := old.usedSick + d }
  | .emergency => new = { old with usedEmergency := old.usedEmergency + d }
  | .unpaid => new = old

/-! ## GeoFence Evaluator (db layer) -/

/-- An active `work_zones` row (only active zones reach the evaluator;
`getActiveWorkZones` filters on `isActive`).  The stored decimal
coordinates and the integer radius are modelled over ℝ. -/
structure WorkZone where
  name : String
  latitude : ℝ
  longitude : ℝ
  radiusMeters : ℝ

/-- Result record of `isLocationInWorkZone`. -/
structure ZoneCheck where
  inZone : Bool
  zoneName : Option String

noncomputable def toRad (deg : ℝ) : ℝ := deg * (Real.pi / 180)

/-- `Math.atan2` on the reals. -/
noncomputable def atan2 (y x : ℝ) : ℝ :=
  if 0 < x then Real.arctan (y / x)
  else if x < 0 ∧ 0 ≤ y then Real.arctan (y / x) + Real.pi
  else if x < 0 ∧ y < 0 then Real.arctan (y / x) - Real.pi
  else if x = 0 ∧ 0 < y then Real.pi / 2
  else if x = 0 ∧ y < 0 then -(Real.pi / 2)
  else 0

/-- Haversine distance with mean Earth radius 6 371 000 m. -/
noncomputable def calculateDistance (lat1 lon1 lat2 lon2 : ℝ) : ℝ :=
  let earthR : ℝ := 6371000
  let dLat := toRad (lat2 - lat1)
  let dLon := toRad (lon2 - lon1)
  let a := Real.sin (dLat / 2) * Real.sin (dLat / 2) +
    Real.cos (toRad lat1) * Real.cos (toRad lat2) *
      Real.sin (dLon / 2) * Real.sin (dLon / 2)
  let c := 2 * atan2 (Real.sqrt a) (Real.sqrt (1 - a))
  earthR * c

/-- `isLocationInWorkZone(latitude, longitude)` over the active zone
list: first zone whose center is within its radius wins; an exhausted
(or empty) list reports `inZone: false` with no zone name. -/
noncomputable def isLocationInWorkZone (latitude longitude : ℝ) :
    List WorkZone → ZoneCheck
  | [] => { inZone := false, zoneName := none }
  | zone :: rest =>
    if calculateDistance latitude longitude zone.latitude zone.longitude ≤ zone.radiusMeters
    then { inZone := true, zoneName := some zone.name }
    else isLocationInWorkZone latitude longitude rest

/-- The block condition of both check-in routes:
`hasActiveZones && !locationCheck.inZone`. -/
noncomputable def geofenceBlocks (latitude longitude : ℝ) (zones : List WorkZone) : Bool :=
  decide (zones.length > 0) && !(isLocationInWorkZone latitude longitude zones).inZone

/-! ## Attendance State Machine (attendance router + db layer) -/

inductive VerifMethod where
  | face
  | fingerprint
  | eye
  deriving DecidableEq, Repr

inductive AttStatus where
  | present
  | late
  | absent
  | halfDay
  deriving DecidableEq, Repr

/-- An `attendance_records` row for the employee and today. -/
structure AttendanceRecord where
  id : ℕ
  checkInTime : Option ℕ
  checkInLatitude : Option ℝ
  checkInLongitude : Option ℝ
  checkInMethod : Option VerifMethod
  checkOutTime : Option ℕ
  checkOutLatitude : Option ℝ
  checkOutLongitude : Option ℝ
  checkOutMethod : Option VerifMethod
  status : AttStatus

/-- `work_settings` with `workStartTime`/`workEndTime` already split at
the colon (`"08:00".split(':').map(Number)` ⇒ (8, 0)). -/
structure WorkSettings where
  workStartHour : ℕ
  workStartMin : ℕ
  workEndHour : ℕ
  workEndMin : ℕ
  lateThresholdMinutes : ℕ
  deriving DecidableEq, Repr

/-- Read-only environment of one attendance request: active zones, work
settings, the clock, whether notification inserts fail at the store, and
the employee-directory fields the routes read. -/
structure AttEnv where
  zones : List WorkZone
  settings : Option WorkSettings
  nowMs : ℕ
  notifyFails : Bool
  fingerprintEnabled : Bool
  faceDataId : Option String
  branchId : Option ℕ

/-- Mutable per-employee state: the device binding, today's attendance
row (if any), the next auto-increment id and the notification log. -/
structure AttState where
  registeredDeviceId : Option String
  todayRecord : Option AttendanceRecord
  nextId : ℕ
  notifs : List String

/-- Result record of `checkEmployeeDevice`. -/
structure DeviceCheck where
  isRegistered : Bool
  isMatch : Bool
  registeredDeviceId : Option String
  deriving DecidableEq, Repr

/-- `checkEmployeeDevice(employeeId, deviceId)` for an existing
employee. -/
def checkEmployeeDevice (st : AttState) (deviceId : String) : DeviceCheck :=
  match st.registeredDeviceId with
  | none => { isRegistered := false, isMatch := false, registeredDeviceId := none }
  | some rd => { isRegistered := true, isMatch := rd == deviceId, registeredDeviceId := some rd }

/-- `registerEmployeeDevice`. -/
def registerEmployeeDevice (st : AttState) (deviceId : String) : AttState :=
  { st with registeredDeviceId := some deviceId }

/-- `clearEmployeeDevice` / its alias `resetEmployeeDevice` as invoked
by the `employee.resetDevice` route: unconditionally clears the
binding. -/
def resetEmployeeDevice (st : AttState) : AttState :=
  { st with registeredDeviceId := none }

/-- `db.createNotification` (also wrapped by `notifyLateArrival`,
`notifyOutsideZone`, `notifyEarlyCheckout`): an insert that throws when
the store fails. -/
def createNotification (st : AttState) (env : AttEnv) (tag : String) :
    Except Err Unit × AttState :=
  if env.notifyFails then (.error .notificationFailure, st)
  else (.ok (), { st with notifs := st.notifs ++ [tag] })

/-- A notification dispatched with `.catch(console.error)`: the failure
is swallowed. -/
def createNotificationCaught (st : AttState) (env : AttEnv) (tag : String) : AttState :=
  if env.notifyFails then st else { st with notifs := st.notifs ++ [tag] }

/-- The lateness decision of both check-in routes: shift `now` by the
fixed UTC+3 offset, take hours/minutes via `getUTCHours`/`getUTCMinutes`
and compare minutes-since-midnight against
`startHour*60 + startMin + lateThresholdMinutes`; strictly greater means
late.  With no work settings the status stays `present`. -/
def lateCheck (env : AttEnv) : AttStatus :=
  match env.settings with
  | none => .present
  | some settings =>
    let localMs := env.nowMs + 3 * 60 * 60 * 1000
    let currentHour := localMs / 3600000 % 24
    let currentMin := localMs / 60000 % 60
    let currentTotalMinutes := currentHour * 60 + currentMin
    let threshold := settings.workStartHour * 60 + settings.workStartMin +
      settings.lateThresholdMinutes
    if currentTotalMinutes > threshold then .late else .present

/-- Spec-side shorthand: minutes since midnight of the UTC+3 local time. -/
def minutesLocal (nowMs : ℕ) : ℕ := (nowMs + 3 * 60 * 60 * 1000) / 60000 % 1440

/-- Result record of both check-in routes. -/
structure CheckInResult where
  status : AttStatus
  recordId : ℕ
  deriving DecidableEq, Repr

/-- Device-binding block of `attendance.checkInByCode` (runs only when
`input.deviceId` is truthy): first use silently binds, a mismatch
notifies the admin (awaited) and then throws. -/
def deviceGuardIn (st : AttState) (env : AttEnv) (deviceId : Option String) :
    Except Err Unit × AttState :=
  match deviceId with
  | none => (.ok (), st)
  | some d =>
    if d != "" then
      let deviceCheck := checkEmployeeDevice st d
      if !deviceCheck.isRegistered then
        (.ok (), registerEmployeeDevice st d)
      else if !deviceCheck.isMatch then
        match createNotification st env "device_mismatch" with
        | (.error e, st1) => (.error e, st1)
        | (.ok _, st1) => (.error .deviceUnauthorized, st1)
      else (.ok (), st)
    else (.ok (), st)

/-- The shared tail of `attendance.checkInByCode` (after the device
guard) and `attendance.checkIn` (after the biometric guard):
already-checked-in guard, geofence block (with awaited outside-zone
notification), lateness decision (with awaited late notification), then
create or update today's row. -/
noncomputable def checkInCore (st : AttState) (env : AttEnv)
    (latitude longitude : ℝ) (method : VerifMethod) :
    Except Err CheckInResult × AttState :=
  if (st.todayRecord.bind AttendanceRecord.checkInTime).isSome then
    (.error .alreadyCheckedIn, st)
  else
    let locationCheck := isLocationInWorkZone latitude longitude env.zones
    let hasActiveZones := decide (env.zones.length > 0)
    if hasActiveZones && !locationCheck.inZone then
      match createNotification st env "outside_zone" with
      | (.error e, st1) => (.error e, st1)
      | (.ok _, st1) => (.error .outsideWorkZone, st1)
    else
      match (if lateCheck env = .late then createNotification st env "late"
             else (.ok (), st)) with
      | (.error e, st1) => (.error e, st1)
      | (.ok _, st1) =>
        match st1.todayRecord with
        | some existing =>
          let updated : AttendanceRecord :=
            { existing with
              checkInTime := some env.nowMs
              checkInLatitude := some latitude
              checkInLongitude := some longitude
              checkInMethod := some method
              status := lateCheck env }
          (.ok { status := lateCheck env, recordId := existing.id },
           { st1 with todayRecord := some updated })
        | none =>
          let record : AttendanceRecord :=
            { id := st1.nextId
              checkInTime := some env.nowMs
              checkInLatitude := some latitude
              checkInLongitude := some longitude
              checkInMethod := some method
              checkOutTime := none
              checkOutLatitude := none
              checkOutLongitude := none
              checkOutMethod := none
              status := lateCheck env }
          (.ok { status := lateCheck env, recordId := st1.nextId },
           { st1 with todayRecord := some record, nextId := st1.nextId + 1 })

/-- Route `attendance.checkInByCode` for a resolved employee. -/
noncomputable def checkInByCode (st : AttState) (env : AttEnv) (deviceId : Option String)
    (latitude longitude : ℝ) (method : VerifMethod) :
    Except Err CheckInResult × AttState :=
  match deviceGuardIn st env deviceId with
  | (.error e, st1) => (.error e, st1)
  | (.ok _, st1) => checkInCore st1 env latitude longitude method

/-- Biometric-registration guard of the OAuth routes `attendance.checkIn`
and `attendance.checkOut`. -/
def biometricGuard (env : AttEnv) (method : VerifMethod) : Except Err Unit :=
  if method = .fingerprint ∧ !env.fingerprintEnabled then .error .biometricMissing
  else if method = .face ∧ !(strTruthy env.faceDataId) then .error .biometricMissing
  else .ok ()

/-- Route `attendance.checkIn` (OAuth) for a linked employee: no device
guard, biometric guard instead, then the shared tail. -/
noncomputable def checkIn (st : AttState) (env : AttEnv)
    (latitude longitude : ℝ) (method : VerifMethod) :
    Except Err CheckInResult × AttState :=
  match biometricGuard env method with
  | .error e => (.error e, st)
  | .ok _ => checkInCore st env latitude longitude method

/-- Device-binding block of `attendance.checkOutByCode`: blocks only on
`isRegistered && !isMatch`; it never registers a device. -/
def deviceGuardOut (st : AttState) (env : AttEnv) (deviceId : Option String) :
    Except Err Unit × AttState :=
  match deviceId with
  | none => (.ok (), st)
  | some d =>
    if d != "" then
      let deviceCheck := checkEmployeeDevice st d
      if deviceCheck.isRegistered && !deviceCheck.isMatch then
        match createNotification st env "device_mismatch" with
        | (.error e, st1) => (.error e, st1)
        | (.ok _, st1) => (.error .deviceUnauthorized, st1)
      else (.ok (), st)
    else (.ok (), st)

/-- Route `attendance.checkOutByCode`: device guard, `NoCheckInToday`
when `!existing?.checkInTime`, `AlreadyCheckedOut` when a checkout is
already stored, then persist and fire two `.catch`-protected
notifications. -/
def checkOutByCode (st : AttState) (env : AttEnv) (deviceId : Option String)
    (latitude longitude : ℝ) (method : VerifMethod) :
    Except Err ℕ × AttState :=
  match deviceGuardOut st env deviceId with
  | (.error e, st1) => (.error e, st1)
  | (.ok _, st1) =>
    match st1.todayRecord with
    | none => (.error .noCheckInToday, st1)
    | some existing =>
      if existing.checkInTime.isNone then (.error .noCheckInToday, st1)
      else if existing.checkOutTime.isSome then (.error .alreadyCheckedOut, st1)
      else
        let updated : AttendanceRecord :=
          { existing with
            checkOutTime := some env.nowMs
            checkOutLatitude := some latitude
            checkOutLongitude := some longitude
            checkOutMethod := some method }
        let st2 := { st1 with todayRecord := some updated }
        let st3 := if env.branchId.isSome
          then createNotificationCaught st2 env "employee_check_out" else st2
        let st4 := createNotificationCaught st3 env "early_checkout"
        (.ok existing.id, st4)

/-- Route `attendance.checkOut` (OAuth): biometric guard, then only
`!existing` triggers `NoCheckInToday` (a null `checkInTime` passes),
`AlreadyCheckedOut` on a stored checkout, an awaited early-checkout
advisory notification (server-local clock taken as UTC), then persist. -/
def checkOut (st : AttState) (env : AttEnv)
    (latitude longitude : ℝ) (method : VerifMethod) :
    Except Err Unit × AttState :=
  match biometricGuard env method with
  | .error e => (.error e, st)
  | .ok _ =>
    match st.todayRecord with
    | none => (.error .noCheckInToday, st)
    | some existing =>
      if existing.checkOutTime.isSome then (.error .alreadyCheckedOut, st)
      else
        let early : Except Err Unit × AttState :=
          match env.settings with
          | none => (.ok (), st)
          | some settings =>
            let nowMsOfDay : ℤ := (env.nowMs % 86400000 : ℕ)
            let endMsOfDay : ℤ := ((settings.workEndHour * 60 + settings.workEndMin) * 60000 : ℕ)
            if nowMsOfDay < endMsOfDay - 7200000 then
              createNotification st env "early_checkout"
            else (.ok (), st)
        match early with
        | (.error e, st1) => (.error e, st1)
        | (.ok _, st1) =>
          let updated : AttendanceRecord :=
            { existing with
              checkOutTime := some env.nowMs
              checkOutLatitude := some latitude
              checkOutLongitude := some longitude
              checkOutMethod := some method }
          (.ok (), { st1 with todayRecord := some updated })

/-! ## Field Task Tracker (fieldTask router + db layer) -/

inductive FtStatus where
  | active
  | completed
  | cancelled
  deriving DecidableEq, Repr

/-- A `field_tasks` row (the fields the modelled routes read). -/
structure FieldTask where
  id : ℕ
  startTime : ℕ
  status : FtStatus
  deriving DecidableEq, Repr

structure FtState where
  tasks : List FieldTask
  nextId : ℕ
  notifs : List String
  deriving DecidableEq, Repr

structure FtResult where
  id : ℕ
  deriving DecidableEq, Repr

/-- `getActiveFieldTask`: among rows with status `active`, the one with
the greatest `startTime` (ORDER BY startTime DESC LIMIT 1). -/
def getActiveFieldTask (tasks : List FieldTask) : Option FieldTask :=
  (tasks.filter fun t => t.status == .active).foldl
    (fun best t =>
      match best with
      | none => some t
      | some b => if b.startTime < t.startTime then some t else some b)
    none

/-- `completeFieldTask(taskId)`: set the matching row to `completed`. -/
def completeFieldTask (st : FtState) (taskId : ℕ) : FtState :=
  { st with tasks := st.tasks.map fun t =>
      if t.id = taskId then { t with status := .completed } else t }

/-- Notification insert in the field-task routes (awaited). -/
def ftCreateNotification (st : FtState) (env : AttEnv) (tag : String) :
    Except Err Unit × FtState :=
  if env.notifyFails then (.error .notificationFailure, st)
  else (.ok (), { st with notifs := st.notifs ++ [tag] })

/-- Route `fieldTask.create` for a resolved employee: with
`isReturn=true` complete the active task if any (`activeTask?.id || 0`
is the returned id); otherwise insert a new `active` row and send the
awaited admin/branch notifications. -/
def fieldTaskCreate (st : FtState) (env : AttEnv) (isReturn : Bool) :
    Except Err FtResult × FtState :=
  if isReturn then
    match getActiveFieldTask st.tasks with
    | some activeTask => (.ok { id := activeTask.id }, completeFieldTask st activeTask.id)
    | none => (.ok { id := 0 }, st)
  else
    let task : FieldTask := { id := st.nextId, startTime := env.nowMs, status := .active }
    let st1 : FtState :=
      { st with tasks := st.tasks ++ [task], nextId := st.nextId + 1 }
    match ftCreateNotification st1 env "system" with
    | (.error e, st2) => (.error e, st2)
    | (.ok _, st2) =>
      if env.branchId.isSome then
        match ftCreateNotification st2 env "general" with
        | (.error e, st3) => (.error e, st3)
        | (.ok _, st3) => (.ok { id := task.id }, st3)
      else (.ok { id := task.id }, st2)

/-- Route `fieldTask.createByCode`: after the employee-code lookup its
body coincides with `fieldTask.create`. -/
def fieldTaskCreateByCode (st : FtState) (env : AttEnv) (isReturn : Bool) :
    Except Err FtResult × FtState :=
  fieldTaskCreate st env isReturn

/-! ## Concrete instances used by witnesses and counterexamples -/

def cLEnv : LedgerEnv := { nowMs := 0, branchId := none, notifyFails := false }

def cReviewer : Reviewer := { id := 1, role := .admin }

/-- Trace for the ledger bound violation: two 21-day annual requests are
both created against the same fresh balance, then both approved. -/
def c7Ops : List LedgerOp :=
  [.request .annual 0 20 "trip a", .request .annual 0 20 "trip b",
   .approveOp (some cReviewer) 0, .approveOp (some cReviewer) 1]

/-- A pending 3-day annual request. -/
def c6Req : LeaveRequest :=
  { id := 0
    leaveType := .annual
    startDate := 0
    endDate := 2
    totalDays := 3
    reason := "family"
    status := .pending
    reviewedBy := none
    reviewedAt := none
    rejectionReason := none }

/-- A ledger holding one pending 3-day annual request. -/
def c6St : LedgerState :=
  { balance := freshBalance, requests := [c6Req], nextReqId := 1, notifs := [] }

def cSettings : WorkSettings :=
  { workStartHour := 8, workStartMin := 0, workEndHour := 17, workEndMin := 0,
    lateThresholdMinutes := 15 }

/-- 18 960 000 ms after the epoch is 08:16 at UTC+3: one minute past the
08:15 late threshold. -/
def cEnv1 : AttEnv :=
  { zones := []
    settings := some cSettings
    nowMs := 18960000
    notifyFails := false
    fingerprintEnabled := true
    faceDataId := some "fd"
    branchId := none }

/-- No zones, no settings, notifications succeed. -/
def cEnv0 : AttEnv :=
  { zones := []
    settings := none
    nowMs := 0
    notifyFails := false
    fingerprintEnabled := false
    faceDataId := none
    branchId := none }

/-- Like `cEnv0` but every notification insert fails. -/
def cEnvNF : AttEnv :=
  { zones := []
    settings := none
    nowMs := 0
    notifyFails := true
    fingerprintEnabled := true
    faceDataId := none
    branchId := none }

/-- A zone whose center is a quarter of the globe away from (0, 0). -/
def zFar : WorkZone := { name := "hq", latitude := 90, longitude := 0, radiusMeters := 100 }

/-- One active far-away zone and failing notifications. -/
def cEnvZone : AttEnv :=
  { zones := [zFar]
    settings := none
    nowMs := 0
    notifyFails := true
    fingerprintEnabled := true
    faceDataId := none
    branchId := none }

/-- Fresh employee state: no binding, no record today. -/
def cSt0 : AttState :=
  { registeredDeviceId := none, todayRecord := none, nextId := 1, notifs := [] }

/-- Device "a" bound, no record today. -/
def c4St : AttState :=
  { registeredDeviceId := some "a", todayRecord := none, nextId := 1, notifs := [] }

/-- Today's row exists but has neither check-in nor check-out time (as
created by `addManualAttendance` with both times omitted). -/
def cRecEmpty : AttendanceRecord :=
  { id := 1
    checkInTime := none
    checkInLatitude := none
    checkInLongitude := none
    checkInMethod := none
    checkOutTime := none
    checkOutLatitude := none
    checkOutLongitude := none
    checkOutMethod := none
    status := .present }

def c3St : AttState :=
  { registeredDeviceId := none, todayRecord := some cRecEmpty, nextId := 2, notifs := [] }

/-- A checked-in, not yet checked-out record. -/
def cRecIn : AttendanceRecord :=
  { cRecEmpty with checkInTime := some 100 }

def c8St : AttState :=
  { registeredDeviceId := none, todayRecord := some cRecIn, nextId := 2, notifs := [] }

def c9StActive : FtState :=
  { tasks := [{ id := 5, startTime := 100, status := .active }], nextId := 6, notifs := [] }

def c9StDone : FtState :=
  { tasks := [{ id := 3, startTime := 50, status := .completed }], nextId := 4, notifs := [] }

/-! ## Lateness (C1) -/

theorem currentTotal_eq (n : ℕ) :
    (n + 3 * 60 * 60 * 1000) / 3600000 % 24 * 60 + (n + 3 * 60 * 60 * 1000) / 60000 % 60
      = minutesLocal n := by
  unfold minutesLocal
  rw [show (3600000 : ℕ) = 60000 * 60 from rfl, ← Nat.div_div_eq_div_mul]
  generalize (n + 3 * 60 * 60 * 1000) / 60000 = M
  omega

theorem lateCheck_late_iff (env : AttEnv) (s : WorkSettings) (h : env.settings = some s) :
    (lateCheck env = .late ↔
      minutesLocal env.nowMs >
        s.workStartHour * 60 + s.workStartMin + s.lateThresholdMinutes) := by
  have h1 : lateCheck env =
      (if (env.nowMs + 3 * 60 * 60 * 1000) / 3600000 % 24 * 60 +
            (env.nowMs + 3 * 60 * 60 * 1000) / 60000 % 60 >
            s.workStartHour * 60 + s.workStartMin + s.lateThresholdMinutes
       then AttStatus.late else AttStatus.present) := by
    unfold lateCheck
    rw [h]
  rw [h1, currentTotal_eq]
  split_ifs with hc
  · simp [hc]
  · simp [hc]

theorem checkInCore_ok_status (st : AttState) (env : AttEnv) (lat lon : ℝ)
    (m : VerifMethod) (r : CheckInResult)
    (h : (checkInCore st env lat lon m).1 = .ok r) : r.status = lateCheck env := by
  obtain ⟨rs, ri⟩ := r
  unfold checkInCore at h
  by_cases h1 : (st.todayRecord.bind AttendanceRecord.checkInTime).isSome = true
  · rw [if_pos h1] at h
    simp at h
  · rw [if_neg h1] at h
    by_cases h2 : (decide (env.zones.length > 0) &&
        !(isLocationInWorkZone lat lon env.zones).inZone) = true
    · rw [if_pos h2] at h
      rcases h3 : createNotification st env "outside_zone" with ⟨res, st1⟩
      rw [h3] at h
      cases res <;> simp at h
    · rw [if_neg h2] at h
      by_cases hl : lateCheck env = AttStatus.late
      · rw [if_pos hl] at h
        rcases h3 : createNotification st env "late" with ⟨res, st1⟩
        rw [h3] at h
        cases res with
        | error e => simp at h
        | ok u =>
          simp only [] at h
          cases h5 : st1.todayRecord with
          | some ex =>
            rw [h5] at h
            simp at h
            exact h.1.symm
          | none =>
            rw [h5] at h
            simp at h
            exact h.1.symm
      · rw [if_neg hl] at h
        simp only [] at h
        cases h5 : st.todayRecord with
        | some ex =>
          rw [h5] at h
          simp at h
          exact h.1.symm
        | none =>
          rw [h5] at h
          simp at h
          exact h.1.symm

theorem checkInByCode_ok_status (st : AttState) (env : AttEnv) (d : Option String)
    (lat lon : ℝ) (m : VerifMethod) (r : CheckInResult)
    (h : (checkInByCode st env d lat lon m).1 = .ok r) : r.status = lateCheck env := by
  unfold checkInByCode at h
  split at h
  · simp at h
  · exact checkInCore_ok_status _ _ _ _ _ _ h

theorem checkIn_ok_status (st : AttState) (env : AttEnv)
    (lat lon : ℝ) (m : VerifMethod) (r : CheckInResult)
    (h : (checkIn st env lat lon m).1 = .ok r) : r.status = lateCheck env := by
  unfold checkIn at h
  split at h
  · simp at h
  · exact checkInCore_ok_status _ _ _ _ _ _ h

/-- C1: for both check-in routes, when work settings exist and the
check-in succeeds, the resulting status is `late` exactly when the
UTC+3 minutes-since-midnight of the current time strictly exceed
`workStartTime` minutes plus `lateThresholdMinutes`; at exactly the
threshold the status is `present`. -/
theorem C1_late_iff_threshold (st st2 : AttState) (env : AttEnv) (s : WorkSettings)
    (d : Option String) (lat lon : ℝ) (m m2 : VerifMethod) (r r2 : CheckInResult)
    (hs : env.settings = some s)
    (h1 : (checkInByCode st env d lat lon m).1 = .ok r)
    (h2 : (checkIn st2 env lat lon m2).1 = .ok r2) :
    (r.status = .late ↔
      minutesLocal env.nowMs >
        s.workStartHour * 60 + s.workStartMin + s.lateThresholdMinutes) ∧
    (r2.status = .late ↔
      minutesLocal env.nowMs >
        s.workStartHour * 60 + s.workStartMin + s.lateThresholdMinutes) := by
  rw [checkInByCode_ok_status _ _ _ _ _ _ _ h1, checkIn_ok_status _ _ _ _ _ _ h2]
  exact ⟨lateCheck_late_iff env s hs, lateCheck_late_iff env s hs⟩

/-- C1 witness: at 08:16 UTC+3 with start 08:00 and threshold 15 both
routes produce status `late`, and 496 > 495. -/
theorem C1_witness :
    (({ status := .late, recordId := 1 } : CheckInResult).status = .late ↔
      minutesLocal cEnv1.nowMs >
        cSettings.workStartHour * 60 + cSettings.workStartMin +
          cSettings.lateThresholdMinutes) ∧
    (({ status := .late, recordId := 1 } : CheckInResult).status = .late ↔
      minutesLocal cEnv1.nowMs >
        cSettings.workStartHour * 60 + cSettings.workStartMin +
          cSettings.lateThresholdMinutes) :=
  C1_late_iff_threshold cSt0 cSt0 cEnv1 cSettings none 0 0 .eye .eye
    { status := .late, recordId := 1 } { status := .late, recordId := 1 } rfl rfl rfl

/-! ## GeoFence Evaluator (C2) -/

theorem isLocationInWorkZone_eq_find (lat lon : ℝ) (zones : List WorkZone) :
    isLocationInWorkZone lat lon zones =
      match zones.find? (fun z =>
          decide (calculateDistance lat lon z.latitude z.longitude ≤ z.radiusMeters)) with
      | some z => { inZone := true, zoneName := some z.name }
      | none => { inZone := false, zoneName := none } := by
  induction zones with
  | nil => rfl
  | cons z rest ih =>
    rw [List.find?_cons]
    by_cases hz : calculateDistance lat lon z.latitude z.longitude ≤ z.radiusMeters
    · unfold isLocationInWorkZone
      rw [if_pos hz]
      simp [hz]
    · unfold isLocationInWorkZone
      rw [if_neg hz]
      simp [hz, ih]

/-- C2 (amended): on the empty active-zone set the evaluator reports
`inZone = false` with no zone name, yet the check-in block condition is
still false (geofencing disabled means no blocking, enforced by the
caller's `hasActiveZones` conjunct, not by an inside verdict); on any
zone set the point is reported inside iff its haversine distance to
some zone's center is at most that zone's radius, and the reported name
is the first such zone in evaluation order. -/
theorem C2_geofence_eval (lat lon : ℝ) (zones : List WorkZone) :
    isLocationInWorkZone lat lon ([] : List WorkZone) = { inZone := false, zoneName := none } ∧
    geofenceBlocks lat lon [] = false ∧
    ((isLocationInWorkZone lat lon zones).inZone = true ↔
      ∃ z ∈ zones, calculateDistance lat lon z.latitude z.longitude ≤ z.radiusMeters) ∧
    (isLocationInWorkZone lat lon zones).zoneName =
      ((zones.find? fun z =>
          decide (calculateDistance lat lon z.latitude z.longitude ≤ z.radiusMeters)).map
        WorkZone.name) := by
  refine ⟨rfl, rfl, ?_, ?_⟩
  · rw [isLocationInWorkZone_eq_find]
    rw [show (∃ z ∈ zones, calculateDistance lat lon z.latitude z.longitude ≤ z.radiusMeters) ↔
        ((zones.find? fun z =>
          decide (calculateDistance lat lon z.latitude z.longitude ≤ z.radiusMeters)).isSome)
      from by simp [List.find?_isSome]]
    cases zones.find? fun z =>
        decide (calculateDistance lat lon z.latitude z.longitude ≤ z.radiusMeters) <;> simp
  · rw [isLocationInWorkZone_eq_find]
    cases zones.find? fun z =>
        decide (calculateDistance lat lon z.latitude z.longitude ≤ z.radiusMeters) <;> simp

/-- C2 counterexample: the claim `isInsideAnyZone(P, ∅) = inside` fails
at P = (0, 0): the evaluator reports the point as not inside. -/
theorem C2_counterexample :
    ¬ (isLocationInWorkZone 0 0 ([] : List WorkZone)).inZone = true := by
  simp [isLocationInWorkZone]

/-! ## Check-out guards (C3) -/

theorem deviceGuardOut_ok (st : AttState) (env : AttEnv) (d : Option String)
    (h : (deviceGuardOut st env d).1 = .ok ()) : deviceGuardOut st env d = (.ok (), st) := by
  unfold deviceGuardOut at h ⊢
  cases d with
  | none => rfl
  | some d =>
    simp only [] at h ⊢
    by_cases hd : (d != "") = true
    · rw [if_pos hd] at h ⊢
      by_cases hm : (checkEmployeeDevice st d).isRegistered &&
          !(checkEmployeeDevice st d).isMatch
      · rw [if_pos hm] at h ⊢
        rcases h3 : createNotification st env "device_mismatch" with ⟨res, st1⟩
        rw [h3] at h
        cases res <;> simp at h
      · rw [if_neg hm] at h ⊢
    · rw [if_neg hd] at h ⊢

/-- C3 (amended): `checkOutByCode` fails with `NoCheckInToday` when
there is no record for today or its `checkInTime` is null, and with
`AlreadyCheckedOut` when `checkOutTime` is already set; `checkOut`
(OAuth) raises `NoCheckInToday` only when no record exists — a record
with a null `checkInTime` passes its guard — and `AlreadyCheckedOut`
when `checkOutTime` is set.  In every one of these failure cases the
state, in particular the attendance record, is unchanged. -/
theorem C3_checkout_guards (st : AttState) (env : AttEnv) (d : Option String)
    (lat lon : ℝ) (m : VerifMethod)
    (hdev : (deviceGuardOut st env d).1 = .ok ())
    (hbio : biometricGuard env m = .ok ()) :
    ((st.todayRecord.bind AttendanceRecord.checkInTime).isNone = true →
      checkOutByCode st env d lat lon m = (.error .noCheckInToday, st)) ∧
    (∀ rec, st.todayRecord = some rec → rec.checkInTime.isSome = true →
      rec.checkOutTime.isSome = true →
      checkOutByCode st env d lat lon m = (.error .alreadyCheckedOut, st)) ∧
    (st.todayRecord = none → checkOut st env lat lon m = (.error .noCheckInToday, st)) ∧
    (∀ rec, st.todayRecord = some rec → rec.checkOutTime.isSome = true →
      checkOut st env lat lon m = (.error .alreadyCheckedOut, st)) := by
  have hd := deviceGuardOut_ok st env d hdev
  refine ⟨?_, ?_, ?_, ?_⟩
  · intro hnone
    unfold checkOutByCode
    rw [hd]
    simp only []
    cases hrec : st.todayRecord with
    | none => rfl
    | some rec =>
      rw [hrec] at hnone
      simp at hnone
      simp [hnone]
  · intro rec hrec hin hout
    unfold checkOutByCode
    rw [hd]
    simp only []
    rw [hrec]
    simp only []
    have hinne : ¬ rec.checkInTime.isNone = true := by
      simp only [Option.isNone_iff_eq_none]
      intro hx
      rw [hx] at hin
      simp at hin
    rw [if_neg hinne, if_pos hout]
  · intro hnone
    unfold checkOut
    rw [hbio]
    simp only []
    rw [hnone]
  · intro rec hrec hout
    unfold checkOut
    rw [hbio]
    simp only []
    rw [hrec]
    simp only []
    rw [if_pos hout]

/-- C3 counterexample: a record that exists with null `checkInTime` and
null `checkOutTime` (as `addManualAttendance` can create) is accepted by
the OAuth `checkOut` route — it succeeds and stamps `checkOutTime` —
where the claim demands a `NoCheckInToday` failure without mutation. -/
theorem C3_counterexample :
    (checkOut c3St cEnv0 0 0 .eye).1 = .ok () ∧
    ((checkOut c3St cEnv0 0 0 .eye).2.todayRecord.map fun r => r.checkOutTime)
      = some (some 0) :=
  ⟨rfl, rfl⟩

/-- C3 witness: with no record today the OAuth checkout fails with
`NoCheckInToday` and leaves the state unchanged. -/
theorem C3_witness :
    checkOut cSt0 cEnv0 0 0 .eye = (.error .noCheckInToday, cSt0) :=
  (C3_checkout_guards cSt0 cEnv0 none 0 0 .eye rfl rfl).2.2.1 rfl

/-! ## Device binding (C4) -/

theorem createNotification_reg (st : AttState) (env : AttEnv) (tag : String) :
    (createNotification st env tag).2.registeredDeviceId = st.registeredDeviceId := by
  unfold createNotification
  split <;> rfl

theorem checkInCore_reg (st : AttState) (env : AttEnv) (lat lon : ℝ) (m : VerifMethod) :
    (checkInCore st env lat lon m).2.registeredDeviceId = st.registeredDeviceId := by
  unfold checkInCore
  by_cases h1 : (st.todayRecord.bind AttendanceRecord.checkInTime).isSome = true
  · rw [if_pos h1]
  · rw [if_neg h1]
    by_cases h2 : (decide (env.zones.length > 0) &&
        !(isLocationInWorkZone lat lon env.zones).inZone) = true
    · rw [if_pos h2]
      rcases h3 : createNotification st env "outside_zone" with ⟨res, st1⟩
      have hr : st1.registeredDeviceId = st.registeredDeviceId := by
        have hx := createNotification_reg st env "outside_zone"
        rw [h3] at hx
        exact hx
      cases res <;> simp [hr]
    · rw [if_neg h2]
      by_cases hl : lateCheck env = AttStatus.late
      · rw [if_pos hl]
        rcases h3 : createNotification st env "late" with ⟨res, st1⟩
        have hr : st1.registeredDeviceId = st.registeredDeviceId := by
          have hx := createNotification_reg st env "late"
          rw [h3] at hx
          exact hx
        cases res with
        | error e => simpa using hr
        | ok u =>
          simp only []
          cases h5 : st1.todayRecord <;> simp [hr]
      · rw [if_neg hl]
        simp only []
        cases h5 : st.todayRecord <;> simp

/-- C4: a mismatching (truthy) deviceId is blocked with
`DeviceUnauthorized` by both by-code routes and never overwrites the
binding; a first check-in with a deviceId and no registered device binds
that device (whatever the final outcome); after `resetDevice` a check-in
with a new deviceId passes the device guard, succeeds (when the other
guards pass and notifications deliver) and rebinds. -/
theorem C4_device_binding (st : AttState) (env : AttEnv) (lat lon : ℝ) (m : VerifMethod)
    (d0 d1 d2 : String) :
    (st.registeredDeviceId = some d0 → d1 ≠ d0 → d1 ≠ "" → env.notifyFails = false →
      (checkInByCode st env (some d1) lat lon m).1 = .error .deviceUnauthorized ∧
      (checkInByCode st env (some d1) lat lon m).2.registeredDeviceId = some d0 ∧
      (checkOutByCode st env (some d1) lat lon m).1 = .error .deviceUnauthorized ∧
      (checkOutByCode st env (some d1) lat lon m).2.registeredDeviceId = some d0) ∧
    (st.registeredDeviceId = none → d2 ≠ "" →
      (checkInByCode st env (some d2) lat lon m).2.registeredDeviceId = some d2) ∧
    (d2 ≠ "" → env.notifyFails = false → st.todayRecord = none →
      geofenceBlocks lat lon env.zones = false →
      (checkInByCode (resetEmployeeDevice st) env (some d2) lat lon m).1.isOk = true ∧
      (checkInByCode (resetEmployeeDevice st) env (some d2) lat lon m).2.registeredDeviceId
        = some d2) := by
  refine ⟨?_, ?_, ?_⟩
  · intro hreg hne hne2 hnf
    have hbe : (d0 == d1) = false := beq_eq_false_iff_ne.mpr (Ne.symm hne)
    have hd1 : (d1 != "") = true := by simpa using hne2
    refine ⟨?_, ?_, ?_, ?_⟩ <;>
      simp [checkInByCode, checkOutByCode, deviceGuardIn, deviceGuardOut,
        checkEmployeeDevice, hreg, hbe, hd1, createNotification, hnf]
  · intro hreg hne2
    have hd2 : (d2 != "") = true := by simpa using hne2
    have hcb : checkInByCode st env (some d2) lat lon m =
        checkInCore (registerEmployeeDevice st d2) env lat lon m := by
      unfold checkInByCode
      rw [show deviceGuardIn st env (some d2) = (.ok (), registerEmployeeDevice st d2) from
        by simp [deviceGuardIn, hd2, checkEmployeeDevice, hreg]]
    rw [hcb, checkInCore_reg]
    simp [registerEmployeeDevice]
  · intro hne2 hnf hrec hgeo
    have hd2 : (d2 != "") = true := by simpa using hne2
    have hguard : deviceGuardIn (resetEmployeeDevice st) env (some d2) =
        (.ok (), registerEmployeeDevice (resetEmployeeDevice st) d2) := by
      simp [deviceGuardIn, hd2, checkEmployeeDevice, resetEmployeeDevice]
    have hcb : checkInByCode (resetEmployeeDevice st) env (some d2) lat lon m =
        checkInCore (registerEmployeeDevice (resetEmployeeDevice st) d2) env lat lon m := by
      unfold checkInByCode
      rw [hguard]
    have hrec' : (registerEmployeeDevice (resetEmployeeDevice st) d2).todayRecord = none := by
      simp [registerEmployeeDevice, resetEmployeeDevice, hrec]
    have hgeo' : (decide (env.zones.length > 0) &&
        !(isLocationInWorkZone lat lon env.zones).inZone) = false := hgeo
    constructor
    · rw [hcb]
      unfold checkInCore
      rw [if_neg (by simp [hrec'])]
      rw [if_neg (by simp [hgeo'])]
      by_cases hl : lateCheck env = AttStatus.late
      · rw [if_pos hl]
        rw [show createNotification (registerEmployeeDevice (resetEmployeeDevice st) d2) env
              "late" =
            (.ok (), { registerEmployeeDevice (resetEmployeeDevice st) d2 with
              notifs := (registerEmployeeDevice (resetEmployeeDevice st) d2).notifs ++
                ["late"] }) from by simp [createNotification, hnf]]
        simp only []
        simp [hrec', Except.isOk, Except.toBool]
      · rw [if_neg hl]
        simp only []
        simp [hrec', Except.isOk, Except.toBool]
    · rw [hcb, checkInCore_reg]
      simp [registerEmployeeDevice]

/-- C4 witness: with device "a" bound, presenting "b" is blocked without
rebinding (both routes); a fresh employee presenting "b" gets "b" bound;
after a reset, presenting "c" succeeds and binds "c". -/
theorem C4_witness :
    ((checkInByCode c4St cEnv0 (some "b") 0 0 .eye).1 = .error .deviceUnauthorized ∧
     (checkInByCode c4St cEnv0 (some "b") 0 0 .eye).2.registeredDeviceId = some "a" ∧
     (checkOutByCode c4St cEnv0 (some "b") 0 0 .eye).1 = .error .deviceUnauthorized ∧
     (checkOutByCode c4St cEnv0 (some "b") 0 0 .eye).2.registeredDeviceId = some "a") ∧
    (checkInByCode cSt0 cEnv0 (some "b") 0 0 .eye).2.registeredDeviceId = some "b" ∧
    ((checkInByCode (resetEmployeeDevice c4St) cEnv0 (some "c") 0 0 .eye).1.isOk = true ∧
     (checkInByCode (resetEmployeeDevice c4St) cEnv0 (some "c") 0 0 .eye).2.registeredDeviceId
       = some "c") :=
  ⟨(C4_device_binding c4St cEnv0 0 0 .eye "a" "b" "c").1 rfl (by decide) (by decide) rfl,
   (C4_device_binding cSt0 cEnv0 0 0 .eye "a" "b" "b").2.1 rfl (by decide),
   (C4_device_binding c4St cEnv0 0 0 .eye "a" "b" "c").2.2 (by decide) rfl rfl rfl⟩

/-! ## Notification-failure propagation (C8) -/

theorem calculateDistance_pole : calculateDistance 0 0 90 0 = 3185500 * Real.pi := by
  unfold calculateDistance toRad atan2
  simp only []
  have hA : Real.sin ((90 - 0) * (Real.pi / 180) / 2) * Real.sin ((90 - 0) * (Real.pi / 180) / 2) +
      Real.cos (0 * (Real.pi / 180)) * Real.cos (90 * (Real.pi / 180)) *
        Real.sin ((0 - 0) * (Real.pi / 180) / 2) * Real.sin ((0 - 0) * (Real.pi / 180) / 2)
      = 1/2 := by
    have h1 : ((90:ℝ) - 0) * (Real.pi / 180) / 2 = Real.pi / 4 := by ring
    have h2 : ((0:ℝ) - 0) * (Real.pi / 180) / 2 = 0 := by ring
    rw [h1, h2, Real.sin_pi_div_four, Real.sin_zero]
    have hs : Real.sqrt 2 * Real.sqrt 2 = 2 := Real.mul_self_sqrt (by norm_num)
    nlinarith [hs]
  rw [hA]
  have h12 : (1:ℝ) - 1/2 = 1/2 := by norm_num
  rw [h12]
  have hpos : 0 < Real.sqrt (1/2) := Real.sqrt_pos.mpr (by norm_num)
  rw [if_pos hpos, div_self (ne_of_gt hpos), Real.arctan_one]
  ring

theorem zFar_outside : (isLocationInWorkZone 0 0 [zFar]).inZone = false := by
  have hgt : (100:ℝ) < calculateDistance 0 0 90 0 := by
    rw [calculateDistance_pole]
    nlinarith [Real.pi_gt_three]
  unfold isLocationInWorkZone zFar
  simp only []
  rw [if_neg (not_le.mpr hgt)]
  rfl

/-- C8 (amended): the security notifications on the device-mismatch and
outside-zone check-in blocks are awaited without a catch, so a failing
notification insert propagates to the caller and replaces the
`DeviceUnauthorized` / `OutsideWorkZone` rejection; by contrast the
post-persist check-out notifications are dispatched with `.catch`, so
their failure never reaches the caller. -/
theorem C8_notification_failures (st : AttState) (env : AttEnv) (lat lon : ℝ)
    (m : VerifMethod) (d0 d1 : String) (rec : AttendanceRecord) :
    (st.registeredDeviceId = some d0 → d1 ≠ d0 → d1 ≠ "" → env.notifyFails = true →
      (checkInByCode st env (some d1) lat lon m).1 = .error .notificationFailure) ∧
    ((st.todayRecord.bind AttendanceRecord.checkInTime).isNone = true →
      env.zones.length > 0 →
      (isLocationInWorkZone lat lon env.zones).inZone = false →
      env.notifyFails = true →
      (checkInByCode st env none lat lon m).1 = .error .notificationFailure) ∧
    (st.todayRecord = some rec → rec.checkInTime.isSome = true →
      rec.checkOutTime.isNone = true →
      (checkOutByCode st env none lat lon m).1 = .ok rec.id) := by
  refine ⟨?_, ?_, ?_⟩
  · intro hreg hne hne2 hnf
    have hbe : (d0 == d1) = false := beq_eq_false_iff_ne.mpr (Ne.symm hne)
    have hd1 : (d1 != "") = true := by simpa using hne2
    simp [checkInByCode, deviceGuardIn, checkEmployeeDevice, hreg, hbe, hd1,
      createNotification, hnf]
  · intro hbind hlen hout hnf
    have hbind' : ¬ (st.todayRecord.bind AttendanceRecord.checkInTime).isSome = true := by
      rw [Option.isNone_iff_eq_none] at hbind
      rw [hbind]
      simp
    have hcb : checkInByCode st env none lat lon m = checkInCore st env lat lon m := by
      unfold checkInByCode deviceGuardIn
      rfl
    rw [hcb]
    unfold checkInCore
    rw [if_neg hbind']
    have hb : (decide (env.zones.length > 0) &&
        !(isLocationInWorkZone lat lon env.zones).inZone) = true := by
      simp [hlen, hout]
    rw [if_pos hb]
    simp [createNotification, hnf]
  · intro hrec hin hout
    have hinne : ¬ rec.checkInTime.isNone = true := by
      rcases hx : rec.checkInTime with _ | v
      · rw [hx] at hin
        simp at hin
      · simp
    have houtne : ¬ rec.checkOutTime.isSome = true := by
      rw [Option.isNone_iff_eq_none] at hout
      rw [hout]
      simp
    unfold checkOutByCode
    rw [show deviceGuardOut st env none = (.ok (), st) from rfl]
    simp only []
    rw [hrec]
    simp only []
    rw [if_neg hinne, if_neg houtne]

/-- C8 counterexample: with device "a" registered, a check-in from
device "b" while the notification insert fails returns the notification
failure to the caller — the original `DeviceUnauthorized` rejection is
masked, where the claim demands it survive. -/
theorem C8_counterexample :
    (checkInByCode c4St cEnvNF (some "b") 0 0 .eye).1 = .error .notificationFailure ∧
    (checkInByCode c4St cEnvNF (some "b") 0 0 .eye).1 ≠ .error .deviceUnauthorized := by
  have h : (checkInByCode c4St cEnvNF (some "b") 0 0 .eye).1
      = .error .notificationFailure := rfl
  refine ⟨h, ?_⟩
  rw [h]
  simp

/-- C8 witness: concrete masking runs for both security blocks and a
concrete checkout whose `.catch`-protected notifications fail without
affecting the result. -/
theorem C8_witness :
    (checkInByCode c4St cEnvNF (some "b") 0 0 .eye).1 = .error .notificationFailure ∧
    (checkInByCode cSt0 cEnvZone none 0 0 .eye).1 = .error .notificationFailure ∧
    (checkOutByCode c8St cEnvNF none 0 0 .eye).1 = .ok 1 :=
  ⟨(C8_notification_failures c4St cEnvNF 0 0 .eye "a" "b" cRecIn).1 rfl (by decide)
      (by decide) rfl,
   (C8_notification_failures cSt0 cEnvZone 0 0 .eye "a" "b" cRecIn).2.1 rfl
      (by decide) zFar_outside rfl,
   (C8_notification_failures c8St cEnvNF 0 0 .eye "a" "b" cRecIn).2.2 rfl rfl rfl⟩

/-! ## Field task return (C9) -/

theorem getActiveFieldTask_none (tasks : List FieldTask)
    (h : ∀ t ∈ tasks, t.status ≠ .active) : getActiveFieldTask tasks = none := by
  unfold getActiveFieldTask
  have hf : tasks.filter (fun t => t.status == .active) = [] := by
    rw [List.filter_eq_nil_iff]
    intro t ht
    simp [h t ht]
  rw [hf]
  rfl

/-- C9: both field-task routes with `isReturn = true` and no active task
return success with id 0 and leave the state untouched; with an active
task they return its id and mark exactly the rows with that id
completed. -/
theorem C9_field_task_return (st : FtState) (env : AttEnv) (t : FieldTask) :
    ((∀ x ∈ st.tasks, x.status ≠ FtStatus.active) →
      fieldTaskCreate st env true = (.ok { id := 0 }, st) ∧
      fieldTaskCreateByCode st env true = (.ok { id := 0 }, st)) ∧
    (getActiveFieldTask st.tasks = some t →
      fieldTaskCreate st env true = (.ok { id := t.id }, completeFieldTask st t.id) ∧
      fieldTaskCreateByCode st env true = (.ok { id := t.id }, completeFieldTask st t.id) ∧
      (∀ x ∈ (fieldTaskCreate st env true).2.tasks, x.id = t.id →
        x.status = FtStatus.completed)) := by
  constructor
  · intro h
    have hn := getActiveFieldTask_none st.tasks h
    constructor <;> simp [fieldTaskCreate, fieldTaskCreateByCode, hn]
  · intro h
    have h1 : fieldTaskCreate st env true = (.ok { id := t.id }, completeFieldTask st t.id) := by
      simp [fieldTaskCreate, h]
    refine ⟨h1, by simpa [fieldTaskCreateByCode] using h1, ?_⟩
    intro x hx hid
    rw [h1] at hx
    simp [completeFieldTask] at hx
    obtain ⟨x0, hx0, hxeq⟩ := hx
    by_cases h0 : x0.id = t.id
    · rw [← hxeq]
      simp [h0]
    · rw [← hxeq] at hid
      simp [h0] at hid

/-- C9 witness: a state whose only task is completed yields a no-op
id-0 success; a state with an active task id 5 completes it and returns
id 5. -/
theorem C9_witness :
    (fieldTaskCreate c9StDone cEnv0 true = (.ok { id := 0 }, c9StDone) ∧
     fieldTaskCreateByCode c9StDone cEnv0 true = (.ok { id := 0 }, c9StDone)) ∧
    fieldTaskCreate c9StActive cEnv0 true =
      (.ok { id := 5 }, completeFieldTask c9StActive 5) :=
  ⟨(C9_field_task_return c9StDone cEnv0 { id := 5, startTime := 100, status := .active }).1
      (by decide),
   ((C9_field_task_return c9StActive cEnv0 { id := 5, startTime := 100, status := .active }).2
      (by decide)).1⟩

/-! ## Leave request creation (C5, C10) -/

theorem computeTotalDays_eq (s e : ℤ) : computeTotalDays s e = ((e - s).natAbs : ℤ) + 1 := by
  unfold computeTotalDays
  simp only []
  have h1 : ((e - s) * ((1000 * 60 * 60 * 24 : ℕ) : ℤ)).natAbs
      = (e - s).natAbs * (1000 * 60 * 60 * 24) := by
    rw [Int.natAbs_mul]
    rfl
  rw [h1]
  generalize (e - s).natAbs = k
  omega

theorem one_le_computeTotalDays (s e : ℤ) : 1 ≤ computeTotalDays s e := by
  rw [computeTotalDays_eq]
  omega

theorem leaveCreate_success (st : LedgerState) (env : LedgerEnv) (ty : LeaveType)
    (s e : ℤ) (reason : String) (hr : reason ≠ "")
    (h : ty = .unpaid ∨ computeTotalDays s e ≤ remainingFor st.balance ty) :
    (leaveCreate st env ty s e reason).1 = .ok st.nextReqId ∧
    (leaveCreate st env ty s e reason).2.balance = st.balance ∧
    ∃ req, (leaveCreate st env ty s e reason).2.requests = st.requests ++ [req] ∧
      req.status = .pending ∧ req.totalDays = computeTotalDays s e ∧ req.leaveType = ty := by
  have hcond : ¬ (ty ≠ LeaveType.unpaid ∧
      remainingFor st.balance ty < computeTotalDays s e) := by
    rcases h with h | h
    · intro hc
      exact hc.1 h
    · intro hc
      exact absurd hc.2 (not_lt.mpr h)
  unfold leaveCreate
  rw [if_neg hr, if_neg hcond]
  refine ⟨rfl, ?_, ?_⟩
  · by_cases hb : env.branchId.isSome <;> by_cases hn : env.notifyFails <;>
      simp [createLeaveRequest, ledgerNotifyCaught, hb, hn]
  · refine ⟨{ id := st.nextReqId
              leaveType := ty
              startDate := s
              endDate := e
              totalDays := computeTotalDays s e
              reason := reason
              status := .pending
              reviewedBy := none
              reviewedAt := none
              rejectionReason := none }, ?_, rfl, rfl, rfl⟩
    by_cases hb : env.branchId.isSome <;> by_cases hn : env.notifyFails <;>
      simp [createLeaveRequest, ledgerNotifyCaught, hb, hn]

/-- C5: for a paid leave type with remaining balance strictly below the
requested `totalDays`, `leave.create` fails with `InsufficientBalance`
and creates nothing; otherwise it creates exactly one request, in
`pending` status, and decrements no balance field. -/
theorem C5_insufficient_balance (st : LedgerState) (env : LedgerEnv) (ty : LeaveType)
    (s e : ℤ) (reason : String) :
    (reason ≠ "" → ty ≠ .unpaid → remainingFor st.balance ty < computeTotalDays s e →
      leaveCreate st env ty s e reason = (.error .insufficientBalance, st)) ∧
    (reason ≠ "" → (ty = .unpaid ∨ computeTotalDays s e ≤ remainingFor st.balance ty) →
      (leaveCreate st env ty s e reason).1 = .ok st.nextReqId ∧
      (leaveCreate st env ty s e reason).2.balance = st.balance ∧
      ∃ req, (leaveCreate st env ty s e reason).2.requests = st.requests ++ [req] ∧
        req.status = .pending ∧ req.totalDays = computeTotalDays s e ∧
        req.leaveType = ty) := by
  constructor
  · intro hr hu hlt
    unfold leaveCreate
    rw [if_neg hr, if_pos ⟨hu, hlt⟩]
  · intro hr h
    exact leaveCreate_success st env ty s e reason hr h

/-- C5 witness: a 25-day annual request against the fresh 21-day balance
fails with `InsufficientBalance` and leaves the ledger untouched. -/
theorem C5_witness :
    leaveCreate freshLedger cLEnv .annual 0 24 "long trip"
      = (.error .insufficientBalance, freshLedger) :=
  (C5_insufficient_balance freshLedger cLEnv .annual 0 24 "long trip").1 (by decide)
    (by decide) (by decide)

/-- C10: `leave.create` never compares the two dates: with
`endDate < startDate` the total is the absolute day difference plus one
(hence always ≥ 1) and the request is created normally whenever the
balance guard passes. -/
theorem C10_reversed_dates (st : LedgerState) (env : LedgerEnv) (ty : LeaveType)
    (s e : ℤ) (reason : String) (hlt : e < s) (hr : reason ≠ "") :
    computeTotalDays s e = (s - e) + 1 ∧
    1 ≤ computeTotalDays s e ∧
    ((ty = .unpaid ∨ computeTotalDays s e ≤ remainingFor st.balance ty) →
      (leaveCreate st env ty s e reason).1 = .ok st.nextReqId ∧
      ∃ req, (leaveCreate st env ty s e reason).2.requests = st.requests ++ [req] ∧
        req.status = .pending ∧ req.totalDays = computeTotalDays s e ∧
        req.leaveType = ty) := by
  refine ⟨?_, one_le_computeTotalDays s e, ?_⟩
  · rw [computeTotalDays_eq]
    omega
  · intro h
    obtain ⟨h1, _, h3⟩ := leaveCreate_success st env ty s e reason hr h
    exact ⟨h1, h3⟩

/-- C10 witness: startDate day 10, endDate day 5 yields 6 days and a
successfully created pending request. -/
theorem C10_witness :
    computeTotalDays 10 5 = (10 - 5) + 1 ∧
    1 ≤ computeTotalDays 10 5 ∧
    ((leaveCreate freshLedger cLEnv .annual 10 5 "swap").1 = .ok 0 ∧
      ∃ req, (leaveCreate freshLedger cLEnv .annual 10 5 "swap").2.requests
          = freshLedger.requests ++ [req] ∧
        req.status = .pending ∧ req.totalDays = computeTotalDays 10 5 ∧
        req.leaveType = .annual) := by
  obtain ⟨h1, h2, h3⟩ := C10_reversed_dates freshLedger cLEnv .annual 10 5 "swap"
    (by decide) (by decide)
  exact ⟨h1, h2, h3 (Or.inr (by decide))⟩

/-! ## Leave decision (C6) -/

theorem find?_map_id_preserving (l : List LeaveRequest) (id : ℕ)
    (f : LeaveRequest → LeaveRequest) (hf : ∀ r, (f r).id = r.id) :
    ((l.map fun r => if r.id = id then f r else r).find? fun r => r.id == id) =
      ((l.find? fun r => r.id == id).map fun r => if r.id = id then f r else r) := by
  induction l with
  | nil => rfl
  | cons a l ih =>
    rw [List.map_cons, List.find?_cons, List.find?_cons]
    by_cases ha : a.id = id
    · have hpa : (a.id == id) = true := by simpa using ha
      have hpfa : ((if a.id = id then f a else a).id == id) = true := by
        rw [if_pos ha]
        simpa using (hf a).trans ha
      simp [hpa, hpfa]
    · have hpa : (a.id == id) = false := by simpa using ha
      have hpfa : ((if a.id = id then f a else a).id == id) = false := by
        rw [if_neg ha]
        simpa using ha
      simp [hpa, hpfa, ih]

theorem applyReviewUpdate_id (status : LeaveStatus) (rb nowMs : ℕ)
    (rr : Option String) (r : LeaveRequest) :
    (applyReviewUpdate status rb nowMs rr r).id = r.id := rfl

theorem updateLeaveRequestStatus_approved (st : LedgerState) (id : ℕ) (rb nowMs : ℕ)
    (req : LeaveRequest) (hfind : getLeaveRequestById st id = some req) :
    updateLeaveRequestStatus st id .approved rb nowMs none =
      { st with
        requests := st.requests.map fun r =>
          if r.id = id then applyReviewUpdate .approved rb nowMs none r else r
        balance := consumeBalance st.balance req.leaveType req.totalDays } := by
  have hid : req.id = id := by
    have hx := List.find?_some hfind
    simpa using hx
  unfold updateLeaveRequestStatus
  simp only []
  rw [if_pos trivial]
  have hfind1 : getLeaveRequestById
      { st with requests := st.requests.map fun r =>
          if r.id = id then applyReviewUpdate .approved rb nowMs none r else r } id
      = some (if req.id = id then applyReviewUpdate .approved rb nowMs none req else req) := by
    unfold getLeaveRequestById at hfind ⊢
    simp only []
    rw [find?_map_id_preserving st.requests id
      (applyReviewUpdate .approved rb nowMs none) (fun r => rfl), hfind]
    rfl
  rw [hfind1, if_pos hid]
  rfl

theorem updateLeaveRequestStatus_rejected (st : LedgerState) (id : ℕ) (rb nowMs : ℕ)
    (rr : Option String) :
    updateLeaveRequestStatus st id .rejected rb nowMs rr =
      { st with
        requests := st.requests.map fun r =>
          if r.id = id then applyReviewUpdate .rejected rb nowMs rr r else r } := by
  unfold updateLeaveRequestStatus
  simp only []
  rw [if_neg (by decide)]

theorem leaveApprove_success_state (st : LedgerState) (env : LedgerEnv) (rv : Reviewer)
    (id : ℕ) (req : LeaveRequest)
    (hrole : rv.role = .branchManager ∨ rv.role = .admin)
    (hfind : getLeaveRequestById st id = some req)
    (hpend : req.status = .pending) :
    (leaveApprove st env (some rv) id).2.balance
        = consumeBalance st.balance req.leaveType req.totalDays ∧
    (leaveApprove st env (some rv) id).2.requests
        = st.requests.map fun r =>
          if r.id = id then applyReviewUpdate .approved rv.id env.nowMs none r else r := by
  unfold leaveApprove
  simp only []
  rw [if_pos hrole, hfind]
  simp only []
  rw [if_pos hpend]
  rw [updateLeaveRequestStatus_approved st id rv.id env.nowMs req hfind]
  by_cases hb : env.branchId.isSome <;> by_cases hn : env.notifyFails <;>
    simp [ledgerCreateNotification, hb, hn]

theorem leaveReject_success_state (st : LedgerState) (env : LedgerEnv) (rv : Reviewer)
    (id : ℕ) (req : LeaveRequest) (reason : String) (hr : reason ≠ "")
    (hrole : rv.role = .branchManager ∨ rv.role = .admin)
    (hfind : getLeaveRequestById st id = some req)
    (hpend : req.status = .pending) :
    (leaveReject st env (some rv) id reason).2.balance = st.balance ∧
    (leaveReject st env (some rv) id reason).2.requests
        = st.requests.map fun r =>
          if r.id = id then applyReviewUpdate .rejected rv.id env.nowMs (some reason) r
          else r := by
  unfold leaveReject
  rw [if_neg hr]
  simp only []
  rw [if_pos hrole, hfind]
  simp only []
  rw [if_pos hpend]
  rw [updateLeaveRequestStatus_rejected st id rv.id env.nowMs (some reason)]
  by_cases hb : env.branchId.isSome <;> by_cases hn : env.notifyFails <;>
    simp [ledgerCreateNotification, hb, hn]

theorem getLeaveRequestById_after_update (st : LedgerState) (id : ℕ)
    (status : LeaveStatus) (rb nowMs : ℕ) (rr : Option String) (req : LeaveRequest)
    (st2 : LedgerState)
    (hfind : getLeaveRequestById st id = some req)
    (hreq : st2.requests = st.requests.map fun r =>
        if r.id = id then applyReviewUpdate status rb nowMs rr r else r) :
    getLeaveRequestById st2 id = some (applyReviewUpdate status rb nowMs rr req) := by
  have hid : req.id = id := by
    have hx := List.find?_some hfind
    simpa using hx
  unfold getLeaveRequestById at hfind ⊢
  rw [hreq, find?_map_id_preserving st.requests id
    (applyReviewUpdate status rb nowMs rr) (fun r => rfl), hfind]
  simp [hid]

theorem incrementsExactly_consume (b : LeaveBalance) (ty : LeaveType) (d : ℤ) :
    IncrementsExactly b (consumeBalance b ty d) ty d := by
  cases ty <;> rfl

/-- C6: approving a pending request stamps status/reviewer/time on the
row and adds exactly `totalDays` to the matching `used*` counter
(nothing at all for unpaid leave); rejecting stamps the row with the
mandatory reason and leaves every balance field unchanged. -/
theorem C6_approval_ledger (st : LedgerState) (env : LedgerEnv) (rv : Reviewer)
    (id : ℕ) (req : LeaveRequest) (reason : String)
    (hrole : rv.role = .branchManager ∨ rv.role = .admin)
    (hfind : getLeaveRequestById st id = some req)
    (hpend : req.status = .pending) (hr : reason ≠ "") :
    (getLeaveRequestById (leaveApprove st env (some rv) id).2 id
        = some (applyReviewUpdate .approved rv.id env.nowMs none req) ∧
     (applyReviewUpdate .approved rv.id env.nowMs none req).status = .approved ∧
     (applyReviewUpdate .approved rv.id env.nowMs none req).reviewedBy = some rv.id ∧
     (applyReviewUpdate .approved rv.id env.nowMs none req).reviewedAt = some env.nowMs ∧
     IncrementsExactly st.balance (leaveApprove st env (some rv) id).2.balance
        req.leaveType req.totalDays ∧
     (req.leaveType = .unpaid → (leaveApprove st env (some rv) id).2.balance
        = st.balance)) ∧
    ((leaveReject st env (some rv) id reason).2.balance = st.balance ∧
     getLeaveRequestById (leaveReject st env (some rv) id reason).2 id
        = some (applyReviewUpdate .rejected rv.id env.nowMs (some reason) req) ∧
     (applyReviewUpdate .rejected rv.id env.nowMs (some reason) req).rejectionReason
        = some reason) := by
  obtain ⟨hbalA, hreqA⟩ := leaveApprove_success_state st env rv id req hrole hfind hpend
  obtain ⟨hbalR, hreqR⟩ := leaveReject_success_state st env rv id req reason hr hrole hfind hpend
  refine ⟨⟨?_, rfl, rfl, rfl, ?_, ?_⟩, ?_, ?_, ?_⟩
  · exact getLeaveRequestById_after_update st id .approved rv.id env.nowMs none req _ hfind hreqA
  · rw [hbalA]
    exact incrementsExactly_consume st.balance req.leaveType req.totalDays
  · intro hu
    rw [hbalA, hu]
    rfl
  · exact hbalR
  · exact getLeaveRequestById_after_update st id .rejected rv.id env.nowMs (some reason) req
      _ hfind hreqR
  · simp [applyReviewUpdate, strTruthy, hr]

/-- C6 witness: approving the pending 3-day annual request moves
`usedAnnual` from 0 to 3; rejecting it instead leaves the balance
untouched and stores the reason. -/
theorem C6_witness :
    (getLeaveRequestById (leaveApprove c6St cLEnv (some cReviewer) 0).2 0
        = some (applyReviewUpdate .approved cReviewer.id cLEnv.nowMs none c6Req) ∧
     (applyReviewUpdate .approved cReviewer.id cLEnv.nowMs none c6Req).status = .approved ∧
     (applyReviewUpdate .approved cReviewer.id cLEnv.nowMs none c6Req).reviewedBy
        = some cReviewer.id ∧
     (applyReviewUpdate .approved cReviewer.id cLEnv.nowMs none c6Req).reviewedAt
        = some cLEnv.nowMs ∧
     IncrementsExactly c6St.balance (leaveApprove c6St cLEnv (some cReviewer) 0).2.balance
        c6Req.leaveType c6Req.totalDays ∧
     (c6Req.leaveType = .unpaid → (leaveApprove c6St cLEnv (some cReviewer) 0).2.balance
        = c6St.balance)) ∧
    ((leaveReject c6St cLEnv (some cReviewer) 0 "missing cover").2.balance = c6St.balance ∧
     getLeaveRequestById (leaveReject c6St cLEnv (some cReviewer) 0 "missing cover").2 0
        = some (applyReviewUpdate .rejected cReviewer.id cLEnv.nowMs
            (some "missing cover") c6Req) ∧
     (applyReviewUpdate .rejected cReviewer.id cLEnv.nowMs (some "missing cover")
        c6Req).rejectionReason = some "missing cover") :=
  C6_approval_ledger c6St cLEnv cReviewer 0 c6Req "missing cover" (by decide) (by decide)
    (by decide) (by decide)

/-! ## Ledger invariants (C7) -/

theorem remainingFor_eq (b : LeaveBalance) (ty : LeaveType) (h : ty ≠ .unpaid) :
    remainingFor b ty = balFor b ty - usedFor b ty := by
  cases ty <;> simp [remainingFor, balFor, usedFor] at h ⊢

theorem leaveCreate_cases (st : LedgerState) (env : LedgerEnv) (ty : LeaveType)
    (s e : ℤ) (reason : String) :
    ((leaveCreate st env ty s e reason).2.balance = st.balance ∧
     (leaveCreate st env ty s e reason).2.requests = st.requests) ∨
    (∃ req, (leaveCreate st env ty s e reason).2.balance = st.balance ∧
      (leaveCreate st env ty s e reason).2.requests = st.requests ++ [req] ∧
      req.status = .pending ∧ req.totalDays = computeTotalDays s e ∧
      (req.leaveType = .unpaid ∨
        usedFor st.balance req.leaveType + req.totalDays
          ≤ balFor st.balance req.leaveType)) := by
  unfold leaveCreate
  by_cases hr : reason = ""
  · rw [if_pos hr]
    exact Or.inl ⟨rfl, rfl⟩
  · rw [if_neg hr]
    by_cases hc : (ty ≠ LeaveType.unpaid ∧
        remainingFor st.balance ty < computeTotalDays s e)
    · rw [if_pos hc]
      exact Or.inl ⟨rfl, rfl⟩
    · rw [if_neg hc]
      right
      refine ⟨{ id := st.nextReqId
                leaveType := ty
                startDate := s
                endDate := e
                totalDays := computeTotalDays s e
                reason := reason
                status := .pending
                reviewedBy := none
                reviewedAt := none
                rejectionReason := none }, ?_, ?_, rfl, rfl, ?_⟩
      · by_cases hb : env.branchId.isSome <;> by_cases hn : env.notifyFails <;>
          simp [createLeaveRequest, ledgerNotifyCaught, hb, hn]
      · by_cases hb : env.branchId.isSome <;> by_cases hn : env.notifyFails <;>
          simp [createLeaveRequest, ledgerNotifyCaught, hb, hn]
      · by_cases hu : ty = LeaveType.unpaid
        · exact Or.inl hu
        · right
          have hle : computeTotalDays s e ≤ remainingFor st.balance ty := by
            rcases not_and_or.mp hc with h1 | h1
            · exact absurd hu (by simpa using h1)
            · exact not_lt.mp h1
          rw [remainingFor_eq st.balance ty hu] at hle
          show usedFor st.balance ty + computeTotalDays s e ≤ balFor st.balance ty
          omega

theorem leaveApprove_cases (st : LedgerState) (env : LedgerEnv)
    (rv? : Option Reviewer) (id : ℕ) :
    ((leaveApprove st env rv? id).2.balance = st.balance ∧
     (leaveApprove st env rv? id).2.requests = st.requests) ∨
    (∃ req rb, getLeaveRequestById st id = some req ∧ req ∈ st.requests ∧
      req.status = .pending ∧ req.id = id ∧
      (leaveApprove st env rv? id).2.requests
        = (st.requests.map fun r =>
            if r.id = id then applyReviewUpdate .approved rb env.nowMs none r else r) ∧
      (leaveApprove st env rv? id).2.balance
        = consumeBalance st.balance req.leaveType req.totalDays) := by
  cases rv? with
  | none => exact Or.inl ⟨rfl, rfl⟩
  | some rv =>
    by_cases hrole : rv.role = Role.branchManager ∨ rv.role = Role.admin
    · cases hfind : getLeaveRequestById st id with
      | none =>
        left
        unfold leaveApprove
        simp only []
        rw [if_pos hrole, hfind]
        exact ⟨rfl, rfl⟩
      | some req =>
        by_cases hpend : req.status = LeaveStatus.pending
        · right
          have hmem : req ∈ st.requests := List.mem_of_find?_eq_some hfind
          have hid : req.id = id := by
            have hx := List.find?_some hfind
            simpa using hx
          obtain ⟨hbal, hreq⟩ := leaveApprove_success_state st env rv id req hrole hfind hpend
          exact ⟨req, rv.id, rfl, hmem, hpend, hid, hreq, hbal⟩
        · left
          unfold leaveApprove
          simp only []
          rw [if_pos hrole, hfind]
          simp only []
          rw [if_neg hpend]
          exact ⟨rfl, rfl⟩
    · left
      unfold leaveApprove
      simp only []
      rw [if_neg hrole]
      exact ⟨rfl, rfl⟩

theorem leaveReject_cases (st : LedgerState) (env : LedgerEnv)
    (rv? : Option Reviewer) (id : ℕ) (reason : String) :
    (leaveReject st env rv? id reason).2.balance = st.balance ∧
    ((leaveReject st env rv? id reason).2.requests = st.requests ∨
     ∃ req rb rr, getLeaveRequestById st id = some req ∧ req ∈ st.requests ∧
      req.status = .pending ∧ req.id = id ∧
      (leaveReject st env rv? id reason).2.requests
        = (st.requests.map fun r =>
            if r.id = id then applyReviewUpdate .rejected rb env.nowMs rr r else r)) := by
  by_cases hr : reason = ""
  · unfold leaveReject
    rw [if_pos hr]
    exact ⟨rfl, Or.inl rfl⟩
  · cases rv? with
    | none =>
      unfold leaveReject
      rw [if_neg hr]
      exact ⟨rfl, Or.inl rfl⟩
    | some rv =>
      by_cases hrole : rv.role = Role.branchManager ∨ rv.role = Role.admin
      · cases hfind : getLeaveRequestById st id with
        | none =>
          unfold leaveReject
          rw [if_neg hr]
          simp only []
          rw [if_pos hrole, hfind]
          exact ⟨rfl, Or.inl rfl⟩
        | some req =>
          by_cases hpend : req.status = LeaveStatus.pending
          · have hmem : req ∈ st.requests := List.mem_of_find?_eq_some hfind
            have hid : req.id = id := by
              have hx := List.find?_some hfind
              simpa using hx
            obtain ⟨hbal, hreq⟩ :=
              leaveReject_success_state st env rv id req reason hr hrole hfind hpend
            exact ⟨hbal, Or.inr ⟨req, rv.id, some reason, rfl, hmem, hpend, hid, hreq⟩⟩
          · unfold leaveReject
            rw [if_neg hr]
            simp only []
            rw [if_pos hrole, hfind]
            simp only []
            rw [if_neg hpend]
            exact ⟨rfl, Or.inl rfl⟩
      · unfold leaveReject
        rw [if_neg hr]
        simp only []
        rw [if_neg hrole]
        exact ⟨rfl, Or.inl rfl⟩

theorem stepLedger_balance_cases (env : LedgerEnv) (st : LedgerState) (op : LedgerOp) :
    (stepLedger env st op).balance = st.balance ∨
    ∃ r ∈ st.requests, r.status = .pending ∧
      (stepLedger env st op).balance = consumeBalance st.balance r.leaveType r.totalDays := by
  cases op with
  | request ty s e reason =>
    rcases leaveCreate_cases st env ty s e reason with ⟨hb, _⟩ | ⟨req, hb, _⟩
    · exact Or.inl hb
    · exact Or.inl hb
  | approveOp rv id =>
    rcases leaveApprove_cases st env rv id with ⟨hb, _⟩ |
      ⟨req, rb, _, hmem, hpend, _, _, hb⟩
    · exact Or.inl hb
    · exact Or.inr ⟨req, hmem, hpend, hb⟩
  | rejectOp rv id reason =>
    exact Or.inl (leaveReject_cases st env rv id reason).1

/-- Every request row ever created carries a positive `totalDays`. -/
def ReqPos (st : LedgerState) : Prop := ∀ r ∈ st.requests, 1 ≤ r.totalDays

theorem reqPos_step (env : LedgerEnv) (st : LedgerState) (op : LedgerOp)
    (h : ReqPos st) : ReqPos (stepLedger env st op) := by
  cases op with
  | request ty s e reason =>
    rcases leaveCreate_cases st env ty s e reason with ⟨_, hreq⟩ | ⟨req, _, hreq, _, hd, _⟩
    · intro r hr
      rw [show (stepLedger env st (.request ty s e reason)).requests
          = (leaveCreate st env ty s e reason).2.requests from rfl, hreq] at hr
      exact h r hr
    · intro r hr
      rw [show (stepLedger env st (.request ty s e reason)).requests
          = (leaveCreate st env ty s e reason).2.requests from rfl, hreq] at hr
      rcases List.mem_append.mp hr with h1 | h1
      · exact h r h1
      · simp at h1
        rw [h1, hd]
        exact one_le_computeTotalDays s e
  | approveOp rv id =>
    rcases leaveApprove_cases st env rv id with ⟨_, hreq⟩ |
      ⟨req, rb, _, _, _, _, hreq, _⟩
    · intro r hr
      rw [show (stepLedger env st (.approveOp rv id)).requests
          = (leaveApprove st env rv id).2.requests from rfl, hreq] at hr
      exact h r hr
    · intro r hr
      rw [show (stepLedger env st (.approveOp rv id)).requests
          = (leaveApprove st env rv id).2.requests from rfl, hreq] at hr
      rcases List.mem_map.mp hr with ⟨r0, hr0, heq⟩
      rw [← heq]
      by_cases h0 : r0.id = id
      · simpa [h0, applyReviewUpdate] using h r0 hr0
      · simpa [h0] using h r0 hr0
  | rejectOp rv id reason =>
    rcases (leaveReject_cases st env rv id reason).2 with hreq |
      ⟨req, rb, rr, _, _, _, _, hreq⟩
    · intro r hr
      rw [show (stepLedger env st (.rejectOp rv id reason)).requests
          = (leaveReject st env rv id reason).2.requests from rfl, hreq] at hr
      exact h r hr
    · intro r hr
      rw [show (stepLedger env st (.rejectOp rv id reason)).requests
          = (leaveReject st env rv id reason).2.requests from rfl, hreq] at hr
      rcases List.mem_map.mp hr with ⟨r0, hr0, heq⟩
      rw [← heq]
      by_cases h0 : r0.id = id
      · simpa [h0, applyReviewUpdate] using h r0 hr0
      · simpa [h0] using h r0 hr0

theorem reachable_reqPos (st : LedgerState) (h : LedgerReachable st) : ReqPos st := by
  induction h with
  | init =>
    intro r hr
    simp [freshLedger] at hr
  | step st env op hr ih => exact reqPos_step env st op ih

/-- The serialized-trace invariant: the bound itself, a reserve bound
for the (at most one) pending request, and uniqueness of the pending
request. -/
def SerialInv (st : LedgerState) : Prop :=
  usedWithinBalance st ∧
  (∀ r ∈ st.requests, r.status = .pending →
    r.leaveType = .unpaid ∨
      usedFor st.balance r.leaveType + r.totalDays ≤ balFor st.balance r.leaveType) ∧
  (∀ r1 ∈ st.requests, ∀ r2 ∈ st.requests,
    r1.status = .pending → r2.status = .pending → r1 = r2)

theorem serialInv_fresh : SerialInv freshLedger := by
  refine ⟨⟨?_, ?_, ?_⟩, ?_, ?_⟩
  · norm_num [freshLedger, freshBalance]
  · norm_num [freshLedger, freshBalance]
  · norm_num [freshLedger, freshBalance]
  · intro r hr
    simp [freshLedger] at hr
  · intro r1 h1
    simp [freshLedger] at h1

theorem serialInv_of_unchanged (st st2 : LedgerState) (hinv : SerialInv st)
    (hbal : st2.balance = st.balance) (hreq : st2.requests = st.requests) :
    SerialInv st2 := by
  obtain ⟨hwb, hbound, hone⟩ := hinv
  refine ⟨?_, ?_, ?_⟩
  · unfold usedWithinBalance at hwb ⊢
    rw [hbal]
    exact hwb
  · intro r hr hp
    rw [hreq] at hr
    rw [hbal]
    exact hbound r hr hp
  · intro r1 h1 r2 h2 hp1 hp2
    rw [hreq] at h1 h2
    exact hone r1 h1 r2 h2 hp1 hp2

theorem serialInv_of_decided (st st2 : LedgerState) (req : LeaveRequest)
    (status : LeaveStatus) (rb nowMs idx : ℕ) (rr : Option String)
    (hinv : SerialInv st) (hmem : req ∈ st.requests) (hpend : req.status = .pending)
    (hst : status ≠ LeaveStatus.pending) (hid : req.id = idx)
    (hreq : st2.requests = st.requests.map fun r =>
        if r.id = idx then applyReviewUpdate status rb nowMs rr r else r)
    (hbal : st2.balance = consumeBalance st.balance req.leaveType req.totalDays ∨
            st2.balance = st.balance) :
    SerialInv st2 := by
  obtain ⟨hwb, hbound, hone⟩ := hinv
  have hnopend : ∀ r ∈ st2.requests, r.status ≠ LeaveStatus.pending := by
    intro r hr hp
    rw [hreq] at hr
    rcases List.mem_map.mp hr with ⟨r0, hr0, heq⟩
    by_cases h0 : r0.id = idx
    · rw [← heq] at hp
      exact hst (by simpa [h0, applyReviewUpdate] using hp)
    · rw [← heq] at hp
      simp [h0] at hp
      exact h0 (by rw [hone r0 hr0 req hmem hp hpend, hid])
  refine ⟨?_, ?_, ?_⟩
  · rcases hbal with hb | hb
    · obtain ⟨w1, w2, w3⟩ := hwb
      have hb2 := hbound req hmem hpend
      unfold usedWithinBalance
      rw [hb]
      cases hty : req.leaveType
      · rcases hb2 with h2 | h2
        · rw [hty] at h2
          simp at h2
        · rw [hty] at h2
          simp [usedFor, balFor] at h2
          simp [consumeBalance]
          omega
      · rcases hb2 with h2 | h2
        · rw [hty] at h2
          simp at h2
        · rw [hty] at h2
          simp [usedFor, balFor] at h2
          simp [consumeBalance]
          omega
      · rcases hb2 with h2 | h2
        · rw [hty] at h2
          simp at h2
        · rw [hty] at h2
          simp [usedFor, balFor] at h2
          simp [consumeBalance]
          omega
      · simp [consumeBalance]
        exact ⟨w1, w2, w3⟩
    · unfold usedWithinBalance at hwb ⊢
      rw [hb]
      exact hwb
  · intro r hr hp
    exact absurd hp (hnopend r hr)
  · intro r1 h1 r2 h2 hp1 hp2
    exact absurd hp1 (hnopend r1 h1)

theorem serialInv_request (st : LedgerState) (env : LedgerEnv) (ty : LeaveType)
    (s e : ℤ) (reason : String) (hinv : SerialInv st)
    (hnp : ∀ r ∈ st.requests, r.status ≠ LeaveStatus.pending) :
    SerialInv (stepLedger env st (.request ty s e reason)) := by
  show SerialInv (leaveCreate st env ty s e reason).2
  rcases leaveCreate_cases st env ty s e reason with ⟨hbal, hreq⟩ |
    ⟨req, hbal, hreq, hpend, hd, hb⟩
  · exact serialInv_of_unchanged st _ hinv hbal hreq
  · obtain ⟨hwb, hbound, hone⟩ := hinv
    refine ⟨?_, ?_, ?_⟩
    · unfold usedWithinBalance at hwb ⊢
      rw [hbal]
      exact hwb
    · intro r hr hp
      rw [hreq] at hr
      rw [hbal]
      rcases List.mem_append.mp hr with h1 | h1
      · exact absurd hp (hnp r h1)
      · simp at h1
        rw [h1]
        exact hb
    · intro r1 h1 r2 h2 hp1 hp2
      rw [hreq] at h1 h2
      rcases List.mem_append.mp h1 with ha | ha
      · exact absurd hp1 (hnp r1 ha)
      · rcases List.mem_append.mp h2 with hb2 | hb2
        · exact absurd hp2 (hnp r2 hb2)
        · simp at ha hb2
          rw [ha, hb2]

theorem serialInv_approve (st : LedgerState) (env : LedgerEnv) (rv : Option Reviewer)
    (id : ℕ) (hinv : SerialInv st) :
    SerialInv (stepLedger env st (.approveOp rv id)) := by
  show SerialInv (leaveApprove st env rv id).2
  rcases leaveApprove_cases st env rv id with ⟨hbal, hreq⟩ |
    ⟨req, rb, hfind, hmem, hpend, hid, hreq, hbal⟩
  · exact serialInv_of_unchanged st _ hinv hbal hreq
  · exact serialInv_of_decided st _ req .approved rb env.nowMs id none hinv hmem hpend
      (by decide) hid hreq (Or.inl hbal)

theorem serialInv_reject (st : LedgerState) (env : LedgerEnv) (rv : Option Reviewer)
    (id : ℕ) (reason : String) (hinv : SerialInv st) :
    SerialInv (stepLedger env st (.rejectOp rv id reason)) := by
  show SerialInv (leaveReject st env rv id reason).2
  obtain ⟨hbal, hcase⟩ := leaveReject_cases st env rv id reason
  rcases hcase with hreq | ⟨req, rb, rr, hfind, hmem, hpend, hid, hreq⟩
  · exact serialInv_of_unchanged st _ hinv hbal hreq
  · exact serialInv_of_decided st _ req .rejected rb env.nowMs id rr hinv hmem hpend
      (by decide) hid hreq (Or.inr hbal)

theorem serial_reachable_inv (st : LedgerState) (h : LedgerReachableSerial st) :
    SerialInv st := by
  induction h with
  | init => exact serialInv_fresh
  | requestStep st env ty s e reason hr hnp ih => exact serialInv_request st env ty s e reason ih hnp
  | approveStep st env rv id hr ih => exact serialInv_approve st env rv id ih
  | rejectStep st env rv id reason hr ih => exact serialInv_reject st env rv id reason ih

/-- C7 (amended): along any reachable ledger trace every `used*`
counter is monotonically non-decreasing at each step; the bound
`used* ≤ *Balance` holds for every state reachable by a serialized
trace, one where a request is only created while no request is pending
(the bound can be violated by overlapping pending requests, which is
the content of the counterexample). -/
theorem C7_used_invariants :
    (∀ st, LedgerReachable st → ∀ env op,
       usedMono st.balance (stepLedger env st op).balance) ∧
    (∀ st, LedgerReachableSerial st → usedWithinBalance st) := by
  constructor
  · intro st hr env op
    rcases stepLedger_balance_cases env st op with hb | ⟨r, hmem, hp, hb⟩
    · unfold usedMono
      rw [hb]
      exact ⟨le_refl _, le_refl _, le_refl _⟩
    · have hpos := reachable_reqPos st hr r hmem
      unfold usedMono
      rw [hb]
      cases hty : r.leaveType <;> simp [consumeBalance] <;> omega
  · intro st hr
    exact (serial_reachable_inv st hr).1

/-- C7 counterexample: two 21-day annual requests both pass the
creation-time check against the same fresh balance; approving both
drives `usedAnnual` to 42, strictly above the 21-day allotment — the
claimed write bound fails on this reachable (non-serialized) trace. -/
theorem C7_counterexample :
    (runLedger cLEnv c7Ops).balance.annualBalance <
      (runLedger cLEnv c7Ops).balance.usedAnnual := by decide

/-- C7 witness: one monotone step from the fresh ledger, and the bound
on the fresh serialized state. -/
theorem C7_witness :
    usedMono freshLedger.balance
      (stepLedger cLEnv freshLedger (.request .annual 0 20 "trip a")).balance ∧
    usedWithinBalance freshLedger :=
  ⟨C7_used_invariants.1 freshLedger .init cLEnv (.request .annual 0 20 "trip a"),
   C7_used_invariants.2 freshLedger .init⟩

end Osus
